import Mathlib

/-!
Verification of the color synchronization engine of the `color-picker-component`
custom element (`src/color-picker-component.js`).

The JavaScript number arithmetic of the color math is modelled with exact
rational arithmetic (`ℚ`); `Math.round` is `⌊q + 1/2⌋` (JavaScript rounds
halves toward positive infinity) and `Math.floor` is `⌊q⌋`.  Pixel channel
values, the canonical color fields and the stored hue are integers (`ℤ`):
every value the component stores in those fields is produced by
`Math.round`/`parseInt`, hence integral.  The rendering surface is modelled
by the pure pixel function the component itself renders
(`renderCanvasWithHue`): the engine's render-before-sample discipline is
reflected by always sampling the plane generated from the current hue.
DOM specifics (markup, listeners, the preview box) are outside the model,
as are the loupe-ring overdraw pixels of the canvas, which the spec scopes
out as rendering.
-/

/-- JavaScript `Math.round`: rounds half toward positive infinity. -/
def jsRound (q : ℚ) : ℤ := ⌊q + 1/2⌋

/-- An `{r,g,b}` triple of JavaScript integers (channels are not clamped
to `[0,255]` anywhere in the source, so the type is all of `ℤ`). -/
structure RGBTriple where
  r : ℤ
  g : ℤ
  b : ℤ
deriving DecidableEq, Repr

/-- The inner `hue2rgb` helper of `hslToRgb` (lines 553-560 of the source):
two sequential wrap-around adjustments of `t`, then the three-segment ramp. -/
def hue2rgb (p q t : ℚ) : ℚ :=
  let t1 := if t < 0 then t + 1 else t
  let t2 := if t1 > 1 then t1 - 1 else t1
  if t2 < 1/6 then p + (q - p) * 6 * t2
  else if t2 < 1/2 then q
  else if t2 < 2/3 then p + (q - p) * (2/3 - t2) * 6
  else p

/-- `hslToRgb(h,s,l)` (lines 548-568): achromatic shortcut when `s == 0`,
otherwise the `p`/`q` ramp, each channel rounded (not truncated) to an
integer. -/
def hslToRgb (h s l : ℚ) : RGBTriple :=
  if s = 0 then ⟨jsRound (l * 255), jsRound (l * 255), jsRound (l * 255)⟩
  else
    let q := if l < 1/2 then l * (1 + s) else l + s - l * s
    let p := 2 * l - q
    ⟨jsRound (hue2rgb p q (h + 1/3) * 255), jsRound (hue2rgb p q h * 255),
      jsRound (hue2rgb p q (h - 1/3) * 255)⟩

/-- `rgbToHsl(r,g,b)` (lines 578-598): returns `(h, s, l)`, each in `ℚ`.
The JavaScript `switch (max)` tries `case r` first, then `case g`, then
`case b`, which the nested conditional mirrors. -/
def rgbToHsl (r g b : ℤ) : ℚ × ℚ × ℚ :=
  let r' := (r : ℚ) / 255
  let g' := (g : ℚ) / 255
  let b' := (b : ℚ) / 255
  let mx := max r' (max g' b')
  let mn := min r' (min g' b')
  let l := (mx + mn) / 2
  if mx = mn then (0, 0, l)
  else
    let d := mx - mn
    let s := if l > 1/2 then d / (2 - mx - mn) else d / (mx + mn)
    let h := if mx = r' then (g' - b') / d + (if g' < b' then 6 else 0)
      else if mx = g' then (b' - r') / d + 2
      else (r' - g') / d + 4
    (h / 6, s, l)

/-- Fuel-driven core of JavaScript `Number.prototype.toString(16)` on a
natural number: most significant digit first, lowercase letters.  The fuel
is always called with `n + 1`, which suffices since `n / 16 < n`. -/
def natHexCore : ℕ → ℕ → List Char
  | 0, _ => []
  | fuel + 1, n =>
    if n < 16 then [Nat.digitChar n]
    else natHexCore fuel (n / 16) ++ [Nat.digitChar (n % 16)]

/-- JavaScript `x.toString(16)` for an integer `x`: a leading `'-'` for
negative values, lowercase hex digits, `"0"` for zero. -/
def jsToString16 (n : ℤ) : List Char :=
  if n < 0 then '-' :: natHexCore (n.natAbs + 1) n.natAbs
  else natHexCore (n.toNat + 1) n.toNat

/-- JavaScript `String.prototype.padStart(2, "0")`. -/
def padStart2 (l : List Char) : List Char := List.replicate (2 - l.length) '0' ++ l

/-- One channel chunk of `rgbToHex`: `x.toString(16).padStart(2, "0")`. -/
def hexChunk (n : ℤ) : List Char := padStart2 (jsToString16 n)

/-- `rgbToHex(r,g,b)` (lines 521-523): `"#"` followed by the three
channel chunks. -/
def rgbToHex (r g b : ℤ) : String := ⟨'#' :: (hexChunk r ++ hexChunk g ++ hexChunk b)⟩

/-- The hex digit characters of the character class `[a-f\d]` with the `i`
flag (equivalently `[0-9A-F]` with `i`), paired with their values. -/
def hexDigitTable : List (Char × ℕ) :=
  [('0', 0), ('1', 1), ('2', 2), ('3', 3), ('4', 4), ('5', 5), ('6', 6), ('7', 7),
   ('8', 8), ('9', 9),
   ('a', 10), ('b', 11), ('c', 12), ('d', 13), ('e', 14), ('f', 15),
   ('A', 10), ('B', 11), ('C', 12), ('D', 13), ('E', 14), ('F', 15)]

/-- Value of one hex digit character (`none` when the character is not a
hex digit). -/
def hexDigitVal (c : Char) : Option ℕ :=
  (hexDigitTable.find? (fun p => p.1 == c)).map (fun p => p.2)

/-- Removal of the optional leading `'#'` matched by the `#?` of the
`hexToRgb` regular expression. -/
def dropHash : List Char → List Char
  | '#' :: rest => rest
  | l => l

/-- `hexToRgb(hex)` (lines 531-538): the regular expression
`/^#?([a-f\d]{2})([a-f\d]{2})([a-f\d]{2})$/i` — an optional leading `'#'`
followed by exactly six hex digits — and `parseInt(chunk, 16)` on each
two-digit capture; `null` (here `none`) otherwise. -/
def hexToRgb (s : String) : Option RGBTriple :=
  match dropHash s.data with
  | [c1, c2, c3, c4, c5, c6] =>
    match hexDigitVal c1, hexDigitVal c2, hexDigitVal c3,
        hexDigitVal c4, hexDigitVal c5, hexDigitVal c6 with
    | some v1, some v2, some v3, some v4, some v5, some v6 =>
      some ⟨((16 * v1 + v2 : ℕ) : ℤ), ((16 * v3 + v4 : ℕ) : ℤ), ((16 * v5 + v6 : ℕ) : ℤ)⟩
    | _, _, _, _, _, _ => none
  | _ => none

/-- The validation regular expression of `handleHexInput` (line 326),
`/^#[0-9A-F]{6}$/i`: a MANDATORY leading `'#'` followed by exactly six hex
digits. -/
def jsHexTest (s : String) : Bool :=
  match s.data with
  | '#' :: rest => rest.length == 6 && rest.all (fun c => (hexDigitVal c).isSome)
  | _ => false

/-- Modelled from the spec: the shape the spec says `hexToRgb` accepts —
"an optional leading `#` followed by exactly 6 hex digits
(case-insensitive)".  Spec-side definition, for comparison with the code's
two validation tests. -/
def specValidHex (s : String) : Bool :=
  (dropHash s.data).length == 6 && (dropHash s.data).all (fun c => (hexDigitVal c).isSome)

/-- Modelled from the spec: the "lowercase normalization of `s` with a `#`
prefix" used to state the hex round-trip property. -/
def normalizeHex (s : String) : String :=
  ⟨'#' :: (dropHash s.data).map Char.toLower⟩

/-- JavaScript `parseInt(s)` restricted to base-10 numerals as entered in
the numeric fields: optional leading spaces, an optional sign, then a
maximal run of decimal digits (`none` models `NaN` when that run is
empty).  The `0x`-literal special case of `parseInt` is outside the model. -/
def jsParseInt (s : String) : Option ℤ :=
  let cs := s.data.dropWhile (fun c => c == ' ')
  let sd : ℤ × List Char :=
    match cs with
    | '-' :: rest => (-1, rest)
    | '+' :: rest => (1, rest)
    | _ => (1, cs)
  let digits := sd.2.takeWhile (fun c => c.isDigit)
  if digits.isEmpty then none
  else some (sd.1 * ((digits.foldl (fun n c => 10 * n + (c.toNat - 48)) 0 : ℕ) : ℤ))

/-- One pixel of the plane rendered by `renderCanvasWithHue(hue)`
(lines 464-479): saturation `x/(width-1)`, lightness `1 - y/(height-1)`. -/
def planePixel (hue : ℤ) (W H : ℕ) (x y : ℕ) : RGBTriple :=
  hslToRgb ((hue : ℚ) / 360) ((x : ℚ) / ((W : ℚ) - 1)) (1 - (y : ℚ) / ((H : ℚ) - 1))

/-- The row-major scan order of `syncLoupeToColor`: `y` from `0` to
`H - 1` outer, `x` from `0` to `W - 1` inner. -/
def coords (W H : ℕ) : List (ℕ × ℕ) :=
  (List.range H).flatMap (fun y => (List.range W).map (fun x => (x, y)))

/-- Accumulator of the nearest-pixel scan: `bestX`, `bestY`, and
`bestDist` with `none` playing the role of the initial `Infinity`. -/
structure ScanAcc where
  bestX : ℕ
  bestY : ℕ
  bestDist : Option ℤ
deriving DecidableEq, Repr

/-- The grayscale check `pr === pg && pg === pb` of `syncLoupeToColor`. -/
def isGrayTriple (c : RGBTriple) : Bool := c.r == c.g && c.g == c.b

/-- Squared Euclidean RGB distance `dr*dr + dg*dg + db*db`. -/
def sqDist (p t : RGBTriple) : ℤ :=
  (p.r - t.r) * (p.r - t.r) + (p.g - t.g) * (p.g - t.g) + (p.b - t.b) * (p.b - t.b)

/-- Comparison `dist < bestDist` with `none` as `Infinity`. -/
def distLt (d : ℤ) : Option ℤ → Bool
  | none => true
  | some d' => decide (d < d')

/-- One iteration of the scan loop of `syncLoupeToColor` (lines 351-375)
at coordinate `c`: once an exact match has been recorded the `break`
statements make every later iteration a no-op; a non-gray pixel is skipped
(`continue`) when the target is gray; otherwise the strict `dist <
bestDist` update keeps the first minimum in scan order. -/
def scanStep (pix : ℕ → ℕ → RGBTriple) (t : RGBTriple) (acc : ScanAcc) (c : ℕ × ℕ) :
    ScanAcc :=
  if acc.bestDist = some 0 then acc
  else if isGrayTriple t && !isGrayTriple (pix c.1 c.2) then acc
  else
    let d := sqDist (pix c.1 c.2) t
    if distLt d acc.bestDist then ⟨c.1, c.2, some d⟩ else acc

/-- The inverse search of `syncLoupeToColor`: full row-major scan of the
rendered plane for the coordinate of the pixel nearest to the target. -/
def locate (pix : ℕ → ℕ → RGBTriple) (W H : ℕ) (t : RGBTriple) : ℕ × ℕ :=
  let acc := (coords W H).foldl (scanStep pix t) ⟨0, 0, none⟩
  (acc.bestX, acc.bestY)

/-- The state owned by the component (`this.state` plus the canonical
color held in the `r`/`g`/`b` input fields, which `updateColorFields`
keeps in lock-step with every edit).  The input fields are empty until the
first edit writes them; the model initializes the three color fields
to `0`. -/
structure PickerState where
  width : ℕ
  height : ℕ
  loupeX : ℚ
  loupeY : ℚ
  hue : ℤ
  r : ℤ
  g : ℤ
  b : ℤ
deriving DecidableEq, Repr

/-- The constructor state (lines 11-22): `loupe` starts at the constant
`(150, 75)` and `hue` at `0`, whatever `width`/`height` were configured. -/
def initialState (w h : ℕ) : PickerState :=
  { width := w, height := h, loupeX := 150, loupeY := 75, hue := 0, r := 0, g := 0, b := 0 }

/-- The payload `{r,g,b,hex}` of one `color-change` notification. -/
structure ColorEvent where
  r : ℤ
  g : ℤ
  b : ℤ
  hex : String
deriving DecidableEq, Repr

/-- `fireColorChange({r,g,b})` (lines 442-456): computes
`hex = rgbToHex(r,g,b)` and emits the single `{r,g,b,hex}` payload. -/
def fireColorChange (c : RGBTriple) : ColorEvent := ⟨c.r, c.g, c.b, rgbToHex c.r c.g c.b⟩

/-- `getColorAt(x,y)` (lines 297-300): samples the plane rendered for the
current hue at the integer-floored coordinate. -/
def getColorAt (st : PickerState) (x y : ℚ) : RGBTriple :=
  planePixel st.hue st.width st.height (⌊x⌋.toNat) (⌊y⌋.toNat)

/-- `syncHueWithRgb(r,g,b)` (lines 421-432): skip when
`max - min < 10`, otherwise store `Math.round(h * 360)` of the converted
hue. -/
def syncHueWithRgb (st : PickerState) (r g b : ℤ) : PickerState :=
  let mx := max r (max g b)
  let mn := min r (min g b)
  if mx - mn < 10 then st
  else { st with hue := jsRound ((rgbToHsl r g b).1 * 360) }

/-- `syncLoupeToColor(r,g,b)` (lines 343-381): inverse search over the
plane rendered for the current hue, then move the loupe there. -/
def syncLoupeToColor (st : PickerState) (r g b : ℤ) : PickerState :=
  let res := locate (planePixel st.hue st.width st.height) st.width st.height ⟨r, g, b⟩
  { st with loupeX := (res.1 : ℚ), loupeY := (res.2 : ℚ) }

/-- `updateLoupeFromEvent(e, allowHueSync)` (lines 270-288): clamp the
event coordinate to the plane, move the loupe, re-render, sample, update
the color fields, resync hue only when `allowHueSync`, then fire once.
The guard on line 276 is the source's own (never-firing, for positive
dimensions) bounds check, kept as written. -/
def updateLoupeFromEvent (st : PickerState) (ex ey : ℚ) (allowHueSync : Bool) :
    PickerState × List ColorEvent :=
  let x := max 0 (min ((st.width : ℚ) - 1) ex)
  let y := max 0 (min ((st.height : ℚ) - 1) ey)
  if x < 0 ∨ y < 0 ∨ (st.width : ℚ) ≤ x ∨ (st.height : ℚ) ≤ y then (st, [])
  else
    let st1 := { st with loupeX := x, loupeY := y }
    let c := getColorAt st1 x y
    let st2 := { st1 with r := c.r, g := c.g, b := c.b }
    let st3 := if allowHueSync then syncHueWithRgb st2 c.r c.g c.b else st2
    (st3, [fireColorChange c])

/-- `updateHueFromEvent(e)` (lines 249-261): clamp the bar coordinate,
store `Math.round(x / barWidth * 360)` as the hue, re-render the plane for
it, resample the color at the unchanged loupe position, then fire once.
Note that it never calls `syncHueWithRgb`. -/
def updateHueFromEvent (st : PickerState) (ex : ℚ) : PickerState × List ColorEvent :=
  let x := max 0 (min ((st.width : ℚ) - 1) ex)
  let hue := jsRound (x / (st.width : ℚ) * 360)
  let st1 := { st with hue := hue }
  let c := getColorAt st1 st1.loupeX st1.loupeY
  ({ st1 with r := c.r, g := c.g, b := c.b }, [fireColorChange c])

/-- `handleRgbInput()` (lines 307-317): `parseInt` each field, bail out on
any `NaN`, otherwise set the color, resync hue, re-render, relocate the
loupe, then fire once. -/
def handleRgbInput (st : PickerState) (rs gs bs : String) : PickerState × List ColorEvent :=
  match jsParseInt rs, jsParseInt gs, jsParseInt bs with
  | some r, some g, some b =>
    let st1 := { st with r := r, g := g, b := b }
    let st2 := syncHueWithRgb st1 r g b
    let st3 := syncLoupeToColor st2 r g b
    (st3, [fireColorChange ⟨r, g, b⟩])
  | _, _, _ => (st, [])

/-- `handleHexInput()` (lines 324-333): bail out unless the text matches
`/^#[0-9A-F]{6}$/i`, otherwise decode with `hexToRgb` and continue exactly
as the numeric commit.  (The inner `none` branch is unreachable: every
string passing the test decodes.) -/
def handleHexInput (st : PickerState) (s : String) : PickerState × List ColorEvent :=
  if jsHexTest s then
    match hexToRgb s with
    | some c =>
      let st1 := { st with r := c.r, g := c.g, b := c.b }
      let st2 := syncHueWithRgb st1 c.r c.g c.b
      let st3 := syncLoupeToColor st2 c.r c.g c.b
      (st3, [fireColorChange c])
    | none => (st, [])
  else (st, [])

/-- `updateSelectedColor(rgbString)` (lines 404-411) after the seed string
has been split and converted: set the color, resync hue, re-render (no
loupe relocation), then fire once.  The unvalidated `Number` conversion of
the three substrings is outside the model; the operation receives the
three converted integers. -/
def updateSelectedColor (st : PickerState) (r g b : ℤ) : PickerState × List ColorEvent :=
  let st1 := { st with r := r, g := g, b := b }
  let st2 := syncHueWithRgb st1 r g b
  (st2, [fireColorChange ⟨r, g, b⟩])

/-- The externally triggered edit entry points of the synchronization
engine (section 4.3 of the spec). -/
inductive PickerOp where
  | planePress (ex ey : ℚ)
  | planeDrag (ex ey : ℚ)
  | hueDrag (ex : ℚ)
  | rgbCommit (rs gs bs : String)
  | hexCommit (s : String)
  | seed (r g b : ℤ)

/-- One externally triggered transition: dispatches an entry point to its
handler and returns the new state together with the list of notifications
it emitted (in emission order). -/
def step (op : PickerOp) (st : PickerState) : PickerState × List ColorEvent :=
  match op with
  | .planePress ex ey => updateLoupeFromEvent st ex ey true
  | .planeDrag ex ey => updateLoupeFromEvent st ex ey false
  | .hueDrag ex => updateHueFromEvent st ex
  | .rgbCommit rs gs bs => handleRgbInput st rs gs bs
  | .hexCommit s => handleHexInput st s
  | .seed r g b => updateSelectedColor st r g b


/-- Claim C9's bounds predicate: the loupe position lies within
`[0, W-1] x [0, H-1]` for the configured plane dimensions. -/
def loupeInBounds (st : PickerState) : Prop :=
  0 ≤ st.loupeX ∧ st.loupeX ≤ (st.width : ℚ) - 1 ∧
  0 ≤ st.loupeY ∧ st.loupeY ≤ (st.height : ℚ) - 1

/-- The entry points that resynchronize the stored hue from the committed
color via `syncHueWithRgb`: plane press, numeric RGB commit, hex commit,
and the programmatic seed.  The hue-bar drag and the continuous plane drag
do not call `syncHueWithRgb`. -/
def resyncsHue : PickerOp → Prop
  | .planePress _ _ => True
  | .rgbCommit _ _ _ => True
  | .hexCommit _ => True
  | .seed _ _ _ => True
  | _ => False

/-- The spec's hue/RGB invariant (section 3, invariant 2), relating the
state before an operation to the state after it: a chromatic canonical
color (spread at least 10) forces the stored hue to agree with the rounded
converted hue, an achromatic one leaves the hue at its prior value. -/
def hueInvariant (pre post : PickerState) : Prop :=
  (10 ≤ max post.r (max post.g post.b) - min post.r (min post.g post.b) →
    post.hue = jsRound ((rgbToHsl post.r post.g post.b).1 * 360)) ∧
  (max post.r (max post.g post.b) - min post.r (min post.g post.b) < 10 →
    post.hue = pre.hue)

/-! ## Helper lemmas about the hex color math -/

lemma hexDigitTable_spec : ∀ p ∈ hexDigitTable, p.2 < 16 ∧ Nat.digitChar p.2 = p.1.toLower := by
  decide

lemma hexDigitVal_spec {c : Char} {v : ℕ} (h : hexDigitVal c = some v) :
    v < 16 ∧ Nat.digitChar v = c.toLower := by
  unfold hexDigitVal at h
  cases hf : hexDigitTable.find? (fun p => p.1 == c) with
  | none => rw [hf] at h; simp at h
  | some p =>
    rw [hf] at h
    simp only [Option.map_some', Option.some.injEq] at h
    have hm := List.mem_of_find?_eq_some hf
    have hp : p.1 = c := by simpa using List.find?_some hf
    obtain ⟨h1, h2⟩ := hexDigitTable_spec p hm
    subst h
    exact ⟨h1, by rw [h2, hp]⟩

lemma hexChunk_pair : ∀ a < 16, ∀ b < 16,
    hexChunk ((16 * a + b : ℕ) : ℤ) = [Nat.digitChar a, Nat.digitChar b] := by
  decide

lemma length_six_shape (l : List Char) (hl : l.length = 6) :
    ∃ a b c d e f, l = [a, b, c, d, e, f] := by
  rcases l with _ | ⟨a, _ | ⟨b, _ | ⟨c, _ | ⟨d, _ | ⟨e, _ | ⟨f, _ | ⟨g, t⟩⟩⟩⟩⟩⟩⟩ <;>
    first
      | exact ⟨_, _, _, _, _, _, rfl⟩
      | simp_all

lemma hexToRgb_some_imp_specValidHex {s : String} {c : RGBTriple}
    (h : hexToRgb s = some c) : specValidHex s = true := by
  unfold hexToRgb at h
  split at h
  case h_1 c1 c2 c3 c4 c5 c6 heq =>
    split at h
    case h_1 v1 v2 v3 v4 v5 v6 h1 h2 h3 h4 h5 h6 =>
      unfold specValidHex
      rw [heq]
      simp [h1, h2, h3, h4, h5, h6]
    case h_2 => simp at h
  case h_2 => simp at h

lemma specValidHex_imp_hexToRgb_some {s : String} (h : specValidHex s = true) :
    ∃ c, hexToRgb s = some c := by
  unfold specValidHex at h
  rw [Bool.and_eq_true, beq_iff_eq] at h
  obtain ⟨hlen, hall⟩ := h
  obtain ⟨a, b, c, d, e, f, hshape⟩ := length_six_shape _ hlen
  rw [hshape] at hall
  simp only [List.all_cons, List.all_nil, Bool.and_eq_true, Option.isSome_iff_exists] at hall
  obtain ⟨⟨v1, h1⟩, ⟨v2, h2⟩, ⟨v3, h3⟩, ⟨v4, h4⟩, ⟨v5, h5⟩, ⟨v6, h6⟩, -⟩ := hall
  refine ⟨⟨((16 * v1 + v2 : ℕ) : ℤ), ((16 * v3 + v4 : ℕ) : ℤ), ((16 * v5 + v6 : ℕ) : ℤ)⟩, ?_⟩
  unfold hexToRgb
  rw [hshape]
  simp only [h1, h2, h3, h4, h5, h6]

lemma jsHexTest_imp_specValidHex {s : String} (h : jsHexTest s = true) :
    specValidHex s = true := by
  unfold jsHexTest at h
  split at h
  case h_1 rest heq => unfold specValidHex; rw [heq]; simpa [dropHash] using h
  case h_2 => simp at h

lemma handleHexInput_rejected {s : String} (st : PickerState) (h : jsHexTest s = false) :
    handleHexInput st s = (st, []) := by
  simp [handleHexInput, h]

lemma handleHexInput_accepted {s : String} (st : PickerState) (h : jsHexTest s = true) :
    ∃ c, hexToRgb s = some c ∧
      handleHexInput st s =
        (syncLoupeToColor (syncHueWithRgb { st with r := c.r, g := c.g, b := c.b } c.r c.g c.b)
          c.r c.g c.b, [fireColorChange c]) := by
  obtain ⟨c, hc⟩ := specValidHex_imp_hexToRgb_some (jsHexTest_imp_specValidHex h)
  exact ⟨c, hc, by simp [handleHexInput, h, hc]⟩

/-- C2: on every well-formed input (optional leading `#`, exactly six hex
digits in either letter case) `rgbToHex` inverts `hexToRgb` exactly, up to
the lowercase `#`-prefixed normalization of the input string. -/
theorem hexToRgb_roundtrip (s : String) (c : RGBTriple) (h : hexToRgb s = some c) :
    rgbToHex c.r c.g c.b = normalizeHex s := by
  unfold hexToRgb at h
  split at h
  case h_1 c1 c2 c3 c4 c5 c6 heq =>
    split at h
    case h_1 v1 v2 v3 v4 v5 v6 h1 h2 h3 h4 h5 h6 =>
      simp only [Option.some.injEq] at h
      subst h
      obtain ⟨b1, e1⟩ := hexDigitVal_spec h1
      obtain ⟨b2, e2⟩ := hexDigitVal_spec h2
      obtain ⟨b3, e3⟩ := hexDigitVal_spec h3
      obtain ⟨b4, e4⟩ := hexDigitVal_spec h4
      obtain ⟨b5, e5⟩ := hexDigitVal_spec h5
      obtain ⟨b6, e6⟩ := hexDigitVal_spec h6
      unfold rgbToHex normalizeHex
      rw [heq]
      simp only []
      rw [hexChunk_pair v1 b1 v2 b2, hexChunk_pair v3 b3 v4 b4, hexChunk_pair v5 b5 v6 b6,
        e1, e2, e3, e4, e5, e6]
      simp
    case h_2 => simp at h
  case h_2 => simp at h

/-- C2 witness: the round-trip at the concrete well-formed input
`"#A1b2C3"`. -/
theorem hexToRgb_roundtrip_witness :
    hexToRgb "#A1b2C3" = some ⟨161, 178, 195⟩ ∧
      rgbToHex (161 : ℤ) 178 195 = normalizeHex "#A1b2C3" := by
  have h : hexToRgb "#A1b2C3" = some ⟨161, 178, 195⟩ := by decide
  exact ⟨h, hexToRgb_roundtrip _ _ h⟩

/-- C7 (amended): `hexToRgb` accepts exactly the strings with an optional
leading `#` and six hex digits, but it is not the sole validation gate of
the hex commit path: `handleHexInput` pre-validates with its own regular
expression requiring a MANDATORY `#`, so a commit is accepted exactly when
that stricter test passes. -/
theorem hex_validation_gate :
    (∀ s : String, (hexToRgb s).isSome = true ↔ specValidHex s = true) ∧
    (∀ (st : PickerState) (s : String),
      (step (.hexCommit s) st).2 ≠ [] ↔ jsHexTest s = true) := by
  constructor
  · intro s
    constructor
    · intro h
      obtain ⟨c, hc⟩ := Option.isSome_iff_exists.mp h
      exact hexToRgb_some_imp_specValidHex hc
    · intro h
      obtain ⟨c, hc⟩ := specValidHex_imp_hexToRgb_some h
      simp [hc]
  · intro st s
    constructor
    · intro h
      by_contra hb
      rw [Bool.not_eq_true] at hb
      exact h (by simp [step, handleHexInput_rejected st hb])
    · intro h
      obtain ⟨c, hc, heq⟩ := handleHexInput_accepted st h
      simp [step, heq]

/-- C7 counterexample: the six-hex-digit string `"aabbcc"` without a
leading `#` is decoded by `hexToRgb`, yet the hex commit path ignores it
completely (the claim said such a string is accepted as a commit). -/
theorem hex_gate_counterexample :
    hexToRgb "aabbcc" = some ⟨170, 187, 204⟩ ∧
      step (.hexCommit "aabbcc") (initialState 300 150) = (initialState 300 150, []) := by
  refine ⟨by decide, ?_⟩
  have h : jsHexTest "aabbcc" = false := by decide
  simp [step, handleHexInput_rejected _ h]

/-- C3: a numeric RGB commit in which any field parses to `NaN`, and a hex
commit whose string does not match the six-hex-digit pattern, are ignored
whole: the state (canonical color, hue, loupe position) is unchanged and
no notification is emitted. -/
theorem invalid_commit_noop :
    (∀ (st : PickerState) (rs gs bs : String),
      jsParseInt rs = none ∨ jsParseInt gs = none ∨ jsParseInt bs = none →
        step (.rgbCommit rs gs bs) st = (st, [])) ∧
    (∀ (st : PickerState) (s : String), specValidHex s = false →
        step (.hexCommit s) st = (st, [])) := by
  constructor
  · intro st rs gs bs h
    rcases h with h | h | h <;>
      cases hr : jsParseInt rs <;> cases hg : jsParseInt gs <;> cases hb : jsParseInt bs <;>
        simp_all [step, handleRgbInput]
  · intro st s h
    have hj : jsHexTest s = false := by
      cases hjt : jsHexTest s
      · rfl
      · rw [jsHexTest_imp_specValidHex hjt] at h; exact absurd h (by simp)
    simp [step, handleHexInput_rejected st hj]

/-- C3 witness: the claim's concrete malformed commits, RGB
`(300, -1, "x")` and hex `"ZZZZZZ"`, at the default initial state. -/
theorem invalid_commit_noop_witness :
    (jsParseInt "x" = none ∧
      step (.rgbCommit "300" "-1" "x") (initialState 300 150) = (initialState 300 150, [])) ∧
    (specValidHex "ZZZZZZ" = false ∧
      step (.hexCommit "ZZZZZZ") (initialState 300 150) = (initialState 300 150, [])) := by
  constructor
  · have h : jsParseInt "x" = none := by decide
    exact ⟨h, invalid_commit_noop.1 _ _ _ _ (Or.inr (Or.inr h))⟩
  · have h : specValidHex "ZZZZZZ" = false := by decide
    exact ⟨h, invalid_commit_noop.2 _ _ h⟩

/-! ## Record-field preservation lemmas for the handlers -/

lemma syncLoupeToColor_r (st : PickerState) (r g b : ℤ) : (syncLoupeToColor st r g b).r = st.r := rfl

lemma syncLoupeToColor_g (st : PickerState) (r g b : ℤ) : (syncLoupeToColor st r g b).g = st.g := rfl

lemma syncLoupeToColor_b (st : PickerState) (r g b : ℤ) : (syncLoupeToColor st r g b).b = st.b := rfl

lemma syncLoupeToColor_hue (st : PickerState) (r g b : ℤ) :
    (syncLoupeToColor st r g b).hue = st.hue := rfl

lemma syncLoupeToColor_width (st : PickerState) (r g b : ℤ) :
    (syncLoupeToColor st r g b).width = st.width := rfl

lemma syncLoupeToColor_height (st : PickerState) (r g b : ℤ) :
    (syncLoupeToColor st r g b).height = st.height := rfl

lemma syncHueWithRgb_r (st : PickerState) (r g b : ℤ) : (syncHueWithRgb st r g b).r = st.r := by
  unfold syncHueWithRgb; dsimp only; split <;> rfl

lemma syncHueWithRgb_g (st : PickerState) (r g b : ℤ) : (syncHueWithRgb st r g b).g = st.g := by
  unfold syncHueWithRgb; dsimp only; split <;> rfl

lemma syncHueWithRgb_b (st : PickerState) (r g b : ℤ) : (syncHueWithRgb st r g b).b = st.b := by
  unfold syncHueWithRgb; dsimp only; split <;> rfl

lemma syncHueWithRgb_loupeX (st : PickerState) (r g b : ℤ) :
    (syncHueWithRgb st r g b).loupeX = st.loupeX := by
  unfold syncHueWithRgb; dsimp only; split <;> rfl

lemma syncHueWithRgb_loupeY (st : PickerState) (r g b : ℤ) :
    (syncHueWithRgb st r g b).loupeY = st.loupeY := by
  unfold syncHueWithRgb; dsimp only; split <;> rfl

lemma syncHueWithRgb_width (st : PickerState) (r g b : ℤ) :
    (syncHueWithRgb st r g b).width = st.width := by
  unfold syncHueWithRgb; dsimp only; split <;> rfl

lemma syncHueWithRgb_height (st : PickerState) (r g b : ℤ) :
    (syncHueWithRgb st r g b).height = st.height := by
  unfold syncHueWithRgb; dsimp only; split <;> rfl

lemma syncHueWithRgb_of_lt {r g b : ℤ} (st : PickerState)
    (h : max r (max g b) - min r (min g b) < 10) : syncHueWithRgb st r g b = st := by
  unfold syncHueWithRgb; rw [if_pos h]

lemma syncHueWithRgb_hue_of_ge {r g b : ℤ} (st : PickerState)
    (h : ¬ max r (max g b) - min r (min g b) < 10) :
    (syncHueWithRgb st r g b).hue = jsRound ((rgbToHsl r g b).1 * 360) := by
  unfold syncHueWithRgb; rw [if_neg h]

/-! ## Case analyses of the accepted/rejected outcome of each handler -/

lemma updateLoupeFromEvent_cases (st : PickerState) (ex ey : ℚ) (sync : Bool) :
    updateLoupeFromEvent st ex ey sync = (st, []) ∨
    ∃ c st', updateLoupeFromEvent st ex ey sync = (st', [fireColorChange c]) ∧
      st'.r = c.r ∧ st'.g = c.g ∧ st'.b = c.b := by
  cases sync
  case false =>
    unfold updateLoupeFromEvent
    dsimp only
    split
    · exact Or.inl rfl
    · exact Or.inr ⟨_, _, rfl, rfl, rfl, rfl⟩
  case true =>
    unfold updateLoupeFromEvent
    dsimp only
    split
    · exact Or.inl rfl
    · simp only [eq_self_iff_true, if_true]
      exact Or.inr ⟨_, _, rfl, by rw [syncHueWithRgb_r], by rw [syncHueWithRgb_g],
        by rw [syncHueWithRgb_b]⟩

lemma updateHueFromEvent_shape (st : PickerState) (ex : ℚ) :
    ∃ c st', updateHueFromEvent st ex = (st', [fireColorChange c]) ∧
      st'.r = c.r ∧ st'.g = c.g ∧ st'.b = c.b :=
  ⟨_, _, rfl, rfl, rfl, rfl⟩

lemma updateSelectedColor_shape (st : PickerState) (r g b : ℤ) :
    ∃ c st', updateSelectedColor st r g b = (st', [fireColorChange c]) ∧
      st'.r = c.r ∧ st'.g = c.g ∧ st'.b = c.b := by
  refine ⟨⟨r, g, b⟩, _, rfl, ?_, ?_, ?_⟩ <;>
    simp [syncHueWithRgb_r, syncHueWithRgb_g, syncHueWithRgb_b, updateSelectedColor]

lemma handleRgbInput_cases (st : PickerState) (rs gs bs : String) :
    handleRgbInput st rs gs bs = (st, []) ∨
    ∃ c st', handleRgbInput st rs gs bs = (st', [fireColorChange c]) ∧
      st'.r = c.r ∧ st'.g = c.g ∧ st'.b = c.b := by
  unfold handleRgbInput
  cases hr : jsParseInt rs <;> cases hg : jsParseInt gs <;> cases hb : jsParseInt bs <;>
    try exact Or.inl rfl
  right
  refine ⟨_, _, rfl, ?_, ?_, ?_⟩ <;>
    simp [syncLoupeToColor_r, syncLoupeToColor_g, syncLoupeToColor_b,
      syncHueWithRgb_r, syncHueWithRgb_g, syncHueWithRgb_b]

lemma handleHexInput_cases (st : PickerState) (s : String) :
    handleHexInput st s = (st, []) ∨
    ∃ c st', handleHexInput st s = (st', [fireColorChange c]) ∧
      st'.r = c.r ∧ st'.g = c.g ∧ st'.b = c.b := by
  cases hj : jsHexTest s
  · exact Or.inl (handleHexInput_rejected st hj)
  · obtain ⟨c, hc, heq⟩ := handleHexInput_accepted st hj
    right
    refine ⟨c, _, heq, ?_, ?_, ?_⟩ <;>
      simp [syncLoupeToColor_r, syncLoupeToColor_g, syncLoupeToColor_b,
        syncHueWithRgb_r, syncHueWithRgb_g, syncHueWithRgb_b]

/-- C4: every accepted entry-point invocation emits exactly one
notification, carrying the final canonical values of the resulting state,
with `hex` computed by `rgbToHex` from those same values. -/
theorem single_notification (op : PickerOp) (st : PickerState)
    (h : (step op st).2 ≠ []) :
    (step op st).2 = [⟨(step op st).1.r, (step op st).1.g, (step op st).1.b,
      rgbToHex (step op st).1.r (step op st).1.g (step op st).1.b⟩] := by
  have main : step op st = (st, []) ∨
      ∃ c st', step op st = (st', [fireColorChange c]) ∧
        st'.r = c.r ∧ st'.g = c.g ∧ st'.b = c.b := by
    cases op with
    | planePress ex ey => exact updateLoupeFromEvent_cases st ex ey true
    | planeDrag ex ey => exact updateLoupeFromEvent_cases st ex ey false
    | hueDrag ex => exact Or.inr (updateHueFromEvent_shape st ex)
    | rgbCommit rs gs bs => exact handleRgbInput_cases st rs gs bs
    | hexCommit s => exact handleHexInput_cases st s
    | seed r g b => exact Or.inr (updateSelectedColor_shape st r g b)
  rcases main with he | ⟨c, st', he, h1, h2, h3⟩
  · rw [he] at h; exact absurd rfl h
  · rw [he]
    simp only [h1, h2, h3]
    rfl

/-- C4 witness: the plane press at `(150, 75)` on the default initial
state is accepted, so it emits exactly the single final-valued
notification. -/
theorem single_notification_witness :
    (step (.planePress 150 75) (initialState 300 150)).2 ≠ [] ∧
      (step (.planePress 150 75) (initialState 300 150)).2 =
        [⟨(step (.planePress 150 75) (initialState 300 150)).1.r,
          (step (.planePress 150 75) (initialState 300 150)).1.g,
          (step (.planePress 150 75) (initialState 300 150)).1.b,
          rgbToHex (step (.planePress 150 75) (initialState 300 150)).1.r
            (step (.planePress 150 75) (initialState 300 150)).1.g
            (step (.planePress 150 75) (initialState 300 150)).1.b⟩] := by
  have h : (step (.planePress 150 75) (initialState 300 150)).2 ≠ [] := by
    show (updateLoupeFromEvent (initialState 300 150) 150 75 true).2 ≠ []
    unfold updateLoupeFromEvent
    rw [if_neg (by norm_num [initialState, max_def, min_def])]
    simp
  exact ⟨h, single_notification _ _ h⟩

/-- C8: numeric RGB commits of the three pure primaries store the hues 0,
120 and 240 respectively. -/
theorem primary_commit_hue (st : PickerState) :
    ((step (.rgbCommit "255" "0" "0") st).1.hue = 0) ∧
    ((step (.rgbCommit "0" "255" "0") st).1.hue = 120) ∧
    ((step (.rgbCommit "0" "0" "255") st).1.hue = 240) := by
  have h255 : jsParseInt "255" = some 255 := by decide
  have h0 : jsParseInt "0" = some 0 := by decide
  refine ⟨?_, ?_, ?_⟩ <;>
  · simp only [step, handleRgbInput, h255, h0, syncLoupeToColor_hue]
    rw [syncHueWithRgb_hue_of_ge _ (by decide)]
    norm_num [rgbToHsl, jsRound, max_def, min_def]

/-! ## Loupe bounds (C9) -/

lemma clamp_le {W : ℕ} {e : ℚ} (h : max 0 (min ((W : ℚ) - 1) e) < (W : ℚ)) :
    max 0 (min ((W : ℚ) - 1) e) ≤ (W : ℚ) - 1 := by
  have h0 : (0 : ℚ) < (W : ℚ) := lt_of_le_of_lt (le_max_left _ _) h
  have hW : (1 : ℚ) ≤ (W : ℚ) := by
    have : 0 < W := by exact_mod_cast h0
    exact_mod_cast this
  exact max_le (by linarith) (min_le_left _ _)

lemma coords_mem {W H : ℕ} {c : ℕ × ℕ} (h : c ∈ coords W H) : c.1 < W ∧ c.2 < H := by
  unfold coords at h
  simp only [List.mem_flatMap, List.mem_map, List.mem_range] at h
  obtain ⟨y, hy, x, hx, rfl⟩ := h
  exact ⟨hx, hy⟩

lemma coords_mem_mk {W H x y : ℕ} (hx : x < W) (hy : y < H) : (x, y) ∈ coords W H := by
  unfold coords
  simp only [List.mem_flatMap, List.mem_map, List.mem_range]
  exact ⟨y, hy, x, hx, rfl⟩

lemma scanStep_bounds {W H : ℕ} {pix : ℕ → ℕ → RGBTriple} {t : RGBTriple} {acc : ScanAcc}
    {c : ℕ × ℕ} (hc : c.1 < W ∧ c.2 < H)
    (ha : acc.bestX < W ∧ acc.bestY < H) :
    (scanStep pix t acc c).bestX < W ∧ (scanStep pix t acc c).bestY < H := by
  unfold scanStep
  dsimp only
  split
  · exact ha
  split
  · exact ha
  split
  · exact hc
  · exact ha

lemma foldl_scanStep_bounds {W H : ℕ} (pix : ℕ → ℕ → RGBTriple) (t : RGBTriple) :
    ∀ (l : List (ℕ × ℕ)) (acc : ScanAcc), (∀ c ∈ l, c.1 < W ∧ c.2 < H) →
      acc.bestX < W ∧ acc.bestY < H →
      (l.foldl (scanStep pix t) acc).bestX < W ∧ (l.foldl (scanStep pix t) acc).bestY < H := by
  intro l
  induction l with
  | nil => intro acc _ ha; exact ha
  | cons c l ih =>
    intro acc hl ha
    rw [List.foldl_cons]
    exact ih _ (fun c' hc' => hl c' (List.mem_cons_of_mem _ hc'))
      (scanStep_bounds (hl c (List.mem_cons_self _ _)) ha)

lemma locate_bounds (pix : ℕ → ℕ → RGBTriple) {W H : ℕ} (t : RGBTriple)
    (hW : 1 ≤ W) (hH : 1 ≤ H) :
    (locate pix W H t).1 < W ∧ (locate pix W H t).2 < H := by
  unfold locate
  exact foldl_scanStep_bounds pix t _ _ (fun c hc => coords_mem hc) ⟨hW, hH⟩

lemma updateLoupeFromEvent_bounds (st : PickerState) (ex ey : ℚ) (sync : Bool)
    (h : (updateLoupeFromEvent st ex ey sync).2 ≠ []) :
    loupeInBounds (updateLoupeFromEvent st ex ey sync).1 := by
  unfold updateLoupeFromEvent at h ⊢
  dsimp only at h ⊢
  split at h
  · exact absurd rfl h
  · rename_i hg
    push_neg at hg
    obtain ⟨h1, h2, h3, h4⟩ := hg
    rw [if_neg (by push_neg; exact ⟨h1, h2, h3, h4⟩)]
    have hx := clamp_le h3
    have hy := clamp_le h4
    cases sync
    · exact ⟨le_max_left _ _, hx, le_max_left _ _, hy⟩
    · simp only [eq_self_iff_true, if_true]
      refine ⟨?_, ?_, ?_, ?_⟩ <;>
        simp only [syncHueWithRgb_loupeX, syncHueWithRgb_loupeY, syncHueWithRgb_width,
          syncHueWithRgb_height]
      · exact le_max_left _ _
      · exact hx
      · exact le_max_left _ _
      · exact hy

lemma syncLoupeToColor_bounds (st : PickerState) (r g b : ℤ)
    (hW : 1 ≤ st.width) (hH : 1 ≤ st.height) :
    loupeInBounds (syncLoupeToColor st r g b) := by
  obtain ⟨hx, hy⟩ := locate_bounds (planePixel st.hue st.width st.height)
    (⟨r, g, b⟩ : RGBTriple) hW hH
  unfold syncLoupeToColor
  refine ⟨by positivity, ?_, by positivity, ?_⟩
  · show ((locate (planePixel st.hue st.width st.height) st.width st.height ⟨r, g, b⟩).1 : ℚ) ≤
      (st.width : ℚ) - 1
    have : ((locate (planePixel st.hue st.width st.height) st.width st.height ⟨r, g, b⟩).1 : ℚ) + 1
        ≤ (st.width : ℚ) := by exact_mod_cast hx
    linarith
  · show ((locate (planePixel st.hue st.width st.height) st.width st.height ⟨r, g, b⟩).2 : ℚ) ≤
      (st.height : ℚ) - 1
    have : ((locate (planePixel st.hue st.width st.height) st.width st.height ⟨r, g, b⟩).2 : ℚ) + 1
        ≤ (st.height : ℚ) := by exact_mod_cast hy
    linarith

/-- C9 counterexample: with a configured plane of width 100 the invariant
fails immediately after initialization — the constructor's constant loupe
position `(150, 75)` lies outside `[0, 99] x [0, 149]`. -/
theorem initial_loupe_out_of_bounds :
    (initialState 100 150).loupeX = 150 ∧ (initialState 100 150).width = 100 ∧
      ¬ loupeInBounds (initialState 100 150) := by
  refine ⟨rfl, rfl, ?_⟩
  intro h
  obtain ⟨-, h2, -, -⟩ := h
  norm_num [initialState] at h2

/-- C9 (amended): the loupe position lies within `[0, W-1] x [0, H-1]`
after every operation that sets it — an accepted plane press or drag
(which clamps), and the inverse search of an accepted RGB/hex commit (for
positive plane dimensions); the hue-bar drag never moves it.  After
initialization, however, the position is the constant `(150, 75)`, which
satisfies the invariant precisely when the configured dimensions are at
least `151 x 76`; for a smaller plane the invariant fails until the first
repositioning edit. -/
theorem loupe_bounds_amended :
    (∀ (st : PickerState) (ex ey : ℚ) (sync : Bool),
      (updateLoupeFromEvent st ex ey sync).2 ≠ [] →
        loupeInBounds (updateLoupeFromEvent st ex ey sync).1) ∧
    (∀ (st : PickerState) (r g b : ℤ), 1 ≤ st.width → 1 ≤ st.height →
      loupeInBounds (syncLoupeToColor st r g b)) ∧
    (∀ (st : PickerState) (ex : ℚ),
      (updateHueFromEvent st ex).1.loupeX = st.loupeX ∧
      (updateHueFromEvent st ex).1.loupeY = st.loupeY) ∧
    (∀ w h : ℕ, 151 ≤ w → 76 ≤ h → loupeInBounds (initialState w h)) ∧
    (∀ w h : ℕ, w < 151 → ¬ loupeInBounds (initialState w h)) := by
  refine ⟨updateLoupeFromEvent_bounds, syncLoupeToColor_bounds, fun st ex => ⟨rfl, rfl⟩, ?_, ?_⟩
  · intro w h hw hh
    have hw' : (151 : ℚ) ≤ (w : ℚ) := by exact_mod_cast hw
    have hh' : (76 : ℚ) ≤ (h : ℚ) := by exact_mod_cast hh
    exact ⟨by norm_num [initialState], by show (150 : ℚ) ≤ (w : ℚ) - 1; linarith,
      by norm_num [initialState], by show (75 : ℚ) ≤ (h : ℚ) - 1; linarith⟩
  · intro w h hw hb
    obtain ⟨-, h2, -, -⟩ := hb
    have hw' : (w : ℚ) ≤ 150 := by exact_mod_cast Nat.lt_succ_iff.mp hw
    have : (150 : ℚ) ≤ (w : ℚ) - 1 := h2
    linarith

/-- C9 amended witness: a plane press at `(12, 75)` on the default state
is accepted and lands in bounds, and the default `300 x 150` dimensions
satisfy the initial-position bound. -/
theorem loupe_bounds_amended_witness :
    ((updateLoupeFromEvent (initialState 300 150) 12 75 true).2 ≠ [] ∧
      loupeInBounds (updateLoupeFromEvent (initialState 300 150) 12 75 true).1) ∧
    (151 ≤ 300 ∧ 76 ≤ 150 ∧ loupeInBounds (initialState 300 150)) := by
  have h : (updateLoupeFromEvent (initialState 300 150) 12 75 true).2 ≠ [] := by
    unfold updateLoupeFromEvent
    rw [if_neg (by norm_num [initialState, max_def, min_def])]
    simp
  exact ⟨⟨h, loupe_bounds_amended.1 _ _ _ _ h⟩,
    by norm_num, by norm_num,
    loupe_bounds_amended.2.2.2.1 300 150 (by norm_num) (by norm_num)⟩

/-! ## Shape of rgbToHex output for out-of-range channels (C10) -/

lemma natHexCore_length_pos (fuel n : ℕ) (h : n < fuel) : 1 ≤ (natHexCore fuel n).length := by
  cases fuel with
  | zero => omega
  | succ f =>
    unfold natHexCore
    split
    · simp
    · rw [List.length_append]
      simp

lemma natHexCore_length_two (fuel n : ℕ) (hf : n < fuel) (hn : 16 ≤ n) :
    2 ≤ (natHexCore fuel n).length := by
  cases fuel with
  | zero => omega
  | succ f =>
    unfold natHexCore
    split
    · omega
    · rw [List.length_append]
      have hd : n / 16 < f := by
        have := Nat.div_lt_self (by omega : 0 < n) (by norm_num : 1 < 16)
        omega
      have := natHexCore_length_pos f (n / 16) hd
      simp only [List.length_cons, List.length_nil]
      omega

lemma natHexCore_length_three (fuel n : ℕ) (hf : n < fuel) (hn : 256 ≤ n) :
    3 ≤ (natHexCore fuel n).length := by
  cases fuel with
  | zero => omega
  | succ f =>
    unfold natHexCore
    split
    · omega
    · rw [List.length_append]
      have hd : n / 16 < f := by
        have := Nat.div_lt_self (by omega : 0 < n) (by norm_num : 1 < 16)
        omega
      have h16 : 16 ≤ n / 16 := Nat.le_div_iff_mul_le (by norm_num) |>.mpr (by omega)
      have := natHexCore_length_two f (n / 16) hd h16
      simp only [List.length_cons, List.length_nil]
      omega

lemma hexChunk_length_two_le (n : ℤ) : 2 ≤ (hexChunk n).length := by
  unfold hexChunk padStart2
  rw [List.length_append, List.length_replicate]
  omega

lemma hexChunk_length_three_le {n : ℤ} (h : 255 < n) : 3 ≤ (hexChunk n).length := by
  unfold hexChunk padStart2 jsToString16
  rw [if_neg (by omega)]
  have h3 := natHexCore_length_three (n.toNat + 1) n.toNat (by omega) (by omega)
  rw [List.length_append, List.length_replicate]
  omega

lemma hexChunk_neg_mem {n : ℤ} (h : n < 0) : '-' ∈ hexChunk n := by
  unfold hexChunk padStart2 jsToString16
  rw [if_pos h]
  exact List.mem_append_right _ (List.mem_cons_self _ _)

lemma rgbToHex_not_six_hex {r g b : ℤ}
    (hbad : r < 0 ∨ 255 < r ∨ g < 0 ∨ 255 < g ∨ b < 0 ∨ 255 < b) :
    jsHexTest (rgbToHex r g b) = false := by
  have hshape : jsHexTest (rgbToHex r g b)
      = ((hexChunk r ++ hexChunk g ++ hexChunk b).length == 6 &&
         (hexChunk r ++ hexChunk g ++ hexChunk b).all (fun c => (hexDigitVal c).isSome)) := rfl
  rw [hshape]
  have l2r := hexChunk_length_two_le r
  have l2g := hexChunk_length_two_le g
  have l2b := hexChunk_length_two_le b
  have hneg : ∀ x : ℤ, '-' ∈ hexChunk x →
      ((hexChunk r ++ hexChunk g ++ hexChunk b).all (fun c => (hexDigitVal c).isSome) = false →
        ((hexChunk r ++ hexChunk g ++ hexChunk b).length == 6 &&
          (hexChunk r ++ hexChunk g ++ hexChunk b).all (fun c => (hexDigitVal c).isSome)) = false) := by
    intro x _ hall
    rw [hall, Bool.and_false]
  have hlen3 : ∀ k, 3 ≤ k → k = (hexChunk r ++ hexChunk g ++ hexChunk b).length →
      3 ≤ (hexChunk r ++ hexChunk g ++ hexChunk b).length := fun k hk he => he ▸ hk
  rcases hbad with h | h | h | h | h | h
  · have hm : '-' ∈ hexChunk r ++ hexChunk g ++ hexChunk b :=
      List.mem_append_left _ (List.mem_append_left _ (hexChunk_neg_mem h))
    have hall : (hexChunk r ++ hexChunk g ++ hexChunk b).all
        (fun c => (hexDigitVal c).isSome) = false := by
      rw [List.all_eq_false]
      exact ⟨'-', hm, by decide⟩
    rw [hall, Bool.and_false]
  · have h3 := hexChunk_length_three_le h
    have hlen : ((hexChunk r ++ hexChunk g ++ hexChunk b).length == 6) = false := by
      rw [List.length_append, List.length_append]
      exact beq_eq_false_iff_ne.mpr (by omega)
    rw [hlen, Bool.false_and]
  · have hm : '-' ∈ hexChunk r ++ hexChunk g ++ hexChunk b :=
      List.mem_append_left _ (List.mem_append_right _ (hexChunk_neg_mem h))
    have hall : (hexChunk r ++ hexChunk g ++ hexChunk b).all
        (fun c => (hexDigitVal c).isSome) = false := by
      rw [List.all_eq_false]
      exact ⟨'-', hm, by decide⟩
    rw [hall, Bool.and_false]
  · have h3 := hexChunk_length_three_le h
    have hlen : ((hexChunk r ++ hexChunk g ++ hexChunk b).length == 6) = false := by
      rw [List.length_append, List.length_append]
      exact beq_eq_false_iff_ne.mpr (by omega)
    rw [hlen, Bool.false_and]
  · have hm : '-' ∈ hexChunk r ++ hexChunk g ++ hexChunk b :=
      List.mem_append_right _ (hexChunk_neg_mem h)
    have hall : (hexChunk r ++ hexChunk g ++ hexChunk b).all
        (fun c => (hexDigitVal c).isSome) = false := by
      rw [List.all_eq_false]
      exact ⟨'-', hm, by decide⟩
    rw [hall, Bool.and_false]
  · have h3 := hexChunk_length_three_le h
    have hlen : ((hexChunk r ++ hexChunk g ++ hexChunk b).length == 6) = false := by
      rw [List.length_append, List.length_append]
      exact beq_eq_false_iff_ne.mpr (by omega)
    rw [hlen, Bool.false_and]

lemma handleRgbInput_accepted {rs gs bs : String} {r g b : ℤ} (st : PickerState)
    (hr : jsParseInt rs = some r) (hg : jsParseInt gs = some g) (hb : jsParseInt bs = some b) :
    handleRgbInput st rs gs bs =
      (syncLoupeToColor (syncHueWithRgb { st with r := r, g := g, b := b } r g b) r g b,
        [fireColorChange ⟨r, g, b⟩]) := by
  unfold handleRgbInput
  rw [hr, hg, hb]

/-- C10: the numeric RGB commit path performs no range validation — any
triple of fields that parse (including out-of-range values) is committed
as-is and notified, and `rgbToHex` applied to a channel outside `[0,255]`
does not produce a `'#'` followed by exactly six hex digits (channel 300
yields the three-character chunk `"12c"`). -/
theorem rgb_commit_unvalidated :
    (∀ (st : PickerState) (rs gs bs : String) (r g b : ℤ),
      jsParseInt rs = some r → jsParseInt gs = some g → jsParseInt bs = some b →
        (step (.rgbCommit rs gs bs) st).1.r = r ∧ (step (.rgbCommit rs gs bs) st).1.g = g ∧
        (step (.rgbCommit rs gs bs) st).1.b = b ∧
        (step (.rgbCommit rs gs bs) st).2 = [⟨r, g, b, rgbToHex r g b⟩]) ∧
    (∀ r g b : ℤ, (r < 0 ∨ 255 < r ∨ g < 0 ∨ 255 < g ∨ b < 0 ∨ 255 < b) →
      jsHexTest (rgbToHex r g b) = false) ∧
    hexChunk 300 = ['1', '2', 'c'] := by
  refine ⟨?_, fun r g b h => rgbToHex_not_six_hex h, by decide⟩
  intro st rs gs bs r g b hr hg hb
  show (handleRgbInput st rs gs bs).1.r = r ∧ (handleRgbInput st rs gs bs).1.g = g ∧
    (handleRgbInput st rs gs bs).1.b = b ∧ (handleRgbInput st rs gs bs).2 = [⟨r, g, b, rgbToHex r g b⟩]
  rw [handleRgbInput_accepted st hr hg hb]
  refine ⟨?_, ?_, ?_, rfl⟩ <;>
    simp [syncLoupeToColor_r, syncLoupeToColor_g, syncLoupeToColor_b,
      syncHueWithRgb_r, syncHueWithRgb_g, syncHueWithRgb_b]

/-- C10 witness: the out-of-range commit `(300, -1, 7)` on a `2 x 2`
state, and channel 300 breaking the six-hex-digit shape. -/
theorem rgb_commit_unvalidated_witness :
    (jsParseInt "300" = some 300 ∧ jsParseInt "-1" = some (-1) ∧ jsParseInt "7" = some 7) ∧
    ((step (.rgbCommit "300" "-1" "7") (initialState 2 2)).1.r = 300 ∧
      (step (.rgbCommit "300" "-1" "7") (initialState 2 2)).1.g = -1 ∧
      (step (.rgbCommit "300" "-1" "7") (initialState 2 2)).1.b = 7 ∧
      (step (.rgbCommit "300" "-1" "7") (initialState 2 2)).2 =
        [⟨300, -1, 7, rgbToHex 300 (-1) 7⟩]) ∧
    ((255 : ℤ) < 300 ∧ jsHexTest (rgbToHex 300 (-1) 7) = false) := by
  have h1 : jsParseInt "300" = some 300 := by decide
  have h2 : jsParseInt "-1" = some (-1) := by decide
  have h3 : jsParseInt "7" = some 7 := by decide
  exact ⟨⟨h1, h2, h3⟩, rgb_commit_unvalidated.1 _ _ _ _ _ _ _ h1 h2 h3,
    by norm_num, rgb_commit_unvalidated.2.1 300 (-1) 7 (Or.inr (Or.inl (by norm_num)))⟩

/-! ## The inverse nearest-pixel search (C5, C6) -/

lemma scanStep_of_zero {pix : ℕ → ℕ → RGBTriple} {t : RGBTriple} {acc : ScanAcc} {c : ℕ × ℕ}
    (h : acc.bestDist = some 0) : scanStep pix t acc c = acc := by
  unfold scanStep
  rw [if_pos h]

lemma foldl_scanStep_of_zero (pix : ℕ → ℕ → RGBTriple) (t : RGBTriple) :
    ∀ (l : List (ℕ × ℕ)) (acc : ScanAcc), acc.bestDist = some 0 →
      l.foldl (scanStep pix t) acc = acc := by
  intro l
  induction l with
  | nil => intro acc _; rfl
  | cons c l ih => intro acc h; rw [List.foldl_cons, scanStep_of_zero h]; exact ih acc h

lemma scanStep_gray_preserve {pix : ℕ → ℕ → RGBTriple} {t : RGBTriple} {acc : ScanAcc}
    {c : ℕ × ℕ} (ht : isGrayTriple t = true)
    (h : acc.bestDist = none ∨ isGrayTriple (pix acc.bestX acc.bestY) = true) :
    (scanStep pix t acc c).bestDist = none ∨
      isGrayTriple (pix (scanStep pix t acc c).bestX (scanStep pix t acc c).bestY) = true := by
  unfold scanStep
  dsimp only
  split
  · exact h
  split
  · exact h
  split
  · right
    rename_i hskip _
    simp only [ht, Bool.true_and, Bool.not_eq_true, Bool.not_eq_false] at hskip
    simpa using hskip
  · exact h

lemma foldl_scanStep_gray (pix : ℕ → ℕ → RGBTriple) (t : RGBTriple)
    (ht : isGrayTriple t = true) :
    ∀ (l : List (ℕ × ℕ)) (acc : ScanAcc),
      (acc.bestDist = none ∨ isGrayTriple (pix acc.bestX acc.bestY) = true) →
      ((l.foldl (scanStep pix t) acc).bestDist = none ∨
        isGrayTriple (pix (l.foldl (scanStep pix t) acc).bestX
          (l.foldl (scanStep pix t) acc).bestY) = true) := by
  intro l
  induction l with
  | nil => intro acc h; exact h
  | cons c l ih => intro acc h; rw [List.foldl_cons]; exact ih _ (scanStep_gray_preserve ht h)

lemma scanStep_none {pix : ℕ → ℕ → RGBTriple} {t : RGBTriple} {acc : ScanAcc} {c : ℕ × ℕ}
    (h : (scanStep pix t acc c).bestDist = none) :
    acc.bestDist = none ∧ (isGrayTriple t && !isGrayTriple (pix c.1 c.2)) = true := by
  unfold scanStep at h
  dsimp only at h
  split at h
  · rename_i h0; rw [h] at h0; exact absurd h0 (by simp)
  split at h
  · rename_i hskip; exact ⟨h, hskip⟩
  · split at h
    · simp at h
    · rename_i hd
      rw [h] at hd
      exact absurd rfl hd

lemma foldl_scanStep_none_start (pix : ℕ → ℕ → RGBTriple) (t : RGBTriple) :
    ∀ (l : List (ℕ × ℕ)) (acc : ScanAcc),
      (l.foldl (scanStep pix t) acc).bestDist = none → acc.bestDist = none := by
  intro l
  induction l with
  | nil => intro acc h; exact h
  | cons c l ih =>
    intro acc h
    rw [List.foldl_cons] at h
    exact (scanStep_none (ih _ h)).1

lemma foldl_scanStep_none_all_skipped (pix : ℕ → ℕ → RGBTriple) (t : RGBTriple)
    (ht : isGrayTriple t = true) :
    ∀ (l : List (ℕ × ℕ)) (acc : ScanAcc),
      (l.foldl (scanStep pix t) acc).bestDist = none →
      ∀ c ∈ l, isGrayTriple (pix c.1 c.2) = false := by
  intro l
  induction l with
  | nil => intro acc _ c hc; exact absurd hc (List.not_mem_nil c)
  | cons c l ih =>
    intro acc h c' hc'
    rw [List.foldl_cons] at h
    rcases List.mem_cons.mp hc' with rfl | hmem
    · have hstep := foldl_scanStep_none_start pix t l _ h
      have hskip := (scanStep_none hstep).2
      simpa [ht] using hskip
    · exact ih _ h c' hmem

lemma locate_gray (pix : ℕ → ℕ → RGBTriple) (W H : ℕ) (t : RGBTriple)
    (ht : isGrayTriple t = true)
    (hgp : ∃ c ∈ coords W H, isGrayTriple (pix c.1 c.2) = true) :
    isGrayTriple (pix (locate pix W H t).1 (locate pix W H t).2) = true := by
  unfold locate
  dsimp only
  have hinv := foldl_scanStep_gray pix t ht (coords W H) ⟨0, 0, none⟩ (Or.inl rfl)
  rcases hinv with hn | hg
  · obtain ⟨c, hc, hcg⟩ := hgp
    rw [foldl_scanStep_none_all_skipped pix t ht _ _ hn c hc] at hcg
    exact absurd hcg (by simp)
  · exact hg

/-- C5: for an achromatic target, the inverse search over any rendered
plane (dimensions at least 2 in each direction) only ever lands on a pixel
that is itself achromatic, regardless of how close non-gray pixels are. -/
theorem gray_target_locates_gray (hue : ℤ) (W H : ℕ) (hW : 2 ≤ W) (hH : 2 ≤ H) (v : ℤ) :
    isGrayTriple (planePixel hue W H
      (locate (planePixel hue W H) W H ⟨v, v, v⟩).1
      (locate (planePixel hue W H) W H ⟨v, v, v⟩).2) = true := by
  apply locate_gray
  · simp [isGrayTriple]
  · refine ⟨(0, H - 1), coords_mem_mk (by omega) (by omega), ?_⟩
    show isGrayTriple (planePixel hue W H 0 (H - 1)) = true
    unfold planePixel hslToRgb
    rw [if_pos (by simp)]
    simp [isGrayTriple]

/-- C5 witness: the gray target `(7,7,7)` on the `2 x 2` plane rendered at
hue 0. -/
theorem gray_target_locates_gray_witness :
    (2 ≤ 2) ∧ isGrayTriple (planePixel 0 2 2
      (locate (planePixel 0 2 2) 2 2 ⟨7, 7, 7⟩).1
      (locate (planePixel 0 2 2) 2 2 ⟨7, 7, 7⟩).2) = true :=
  ⟨by norm_num, gray_target_locates_gray 0 2 2 (by norm_num) (by norm_num) 7⟩

lemma sqDist_self (t : RGBTriple) : sqDist t t = 0 := by simp [sqDist]

lemma sqDist_nonneg (p t : RGBTriple) : 0 ≤ sqDist p t := by
  unfold sqDist
  have h1 := mul_self_nonneg (p.r - t.r)
  have h2 := mul_self_nonneg (p.g - t.g)
  have h3 := mul_self_nonneg (p.b - t.b)
  linarith

lemma sqDist_pos {p t : RGBTriple} (h : p ≠ t) : 0 < sqDist p t := by
  rcases lt_or_eq_of_le (sqDist_nonneg p t) with hlt | heq
  · exact hlt
  · exfalso
    apply h
    unfold sqDist at heq
    have h1 := mul_self_nonneg (p.r - t.r)
    have h2 := mul_self_nonneg (p.g - t.g)
    have h3 := mul_self_nonneg (p.b - t.b)
    have e1 : (p.r - t.r) * (p.r - t.r) = 0 := by linarith
    have e2 : (p.g - t.g) * (p.g - t.g) = 0 := by linarith
    have e3 : (p.b - t.b) * (p.b - t.b) = 0 := by linarith
    have f1 := mul_self_eq_zero.mp e1
    have f2 := mul_self_eq_zero.mp e2
    have f3 := mul_self_eq_zero.mp e3
    obtain ⟨pr, pg, pb⟩ := p
    obtain ⟨tr, tg, tb⟩ := t
    simp only at f1 f2 f3
    simp only [RGBTriple.mk.injEq]
    exact ⟨by omega, by omega, by omega⟩

lemma scanStep_J {pix : ℕ → ℕ → RGBTriple} {t : RGBTriple} {acc : ScanAcc} {c : ℕ × ℕ}
    (hJ : ∀ d, acc.bestDist = some d → 0 < d) (hne : pix c.1 c.2 ≠ t) :
    ∀ d, (scanStep pix t acc c).bestDist = some d → 0 < d := by
  unfold scanStep
  dsimp only
  split
  · exact hJ
  split
  · exact hJ
  split
  · intro d hd
    simp only [Option.some.injEq] at hd
    exact hd ▸ sqDist_pos hne
  · exact hJ

lemma foldl_scanStep_first_match (pix : ℕ → ℕ → RGBTriple) (t : RGBTriple) :
    ∀ (l : List (ℕ × ℕ)) (acc : ScanAcc) (c0 : ℕ × ℕ),
      (∀ d, acc.bestDist = some d → 0 < d) →
      l.find? (fun c => pix c.1 c.2 == t) = some c0 →
      l.foldl (scanStep pix t) acc = ⟨c0.1, c0.2, some 0⟩ := by
  intro l
  induction l with
  | nil => intro acc c0 _ hf; simp at hf
  | cons c l ih =>
    intro acc c0 hJ hf
    rw [List.foldl_cons]
    by_cases hp : pix c.1 c.2 = t
    · have hc0 : c0 = c := by
        rw [List.find?_cons_of_pos _ (by simp [hp])] at hf
        exact (Option.some.injEq _ _ |>.mp hf).symm
      have h0 : ¬ acc.bestDist = some 0 := fun h0 => absurd (hJ 0 h0) (by norm_num)
      have hskip : ¬ ((isGrayTriple t && !isGrayTriple (pix c.1 c.2)) = true) := by
        rw [hp]; simp
      have hlt : distLt (sqDist (pix c.1 c.2) t) acc.bestDist = true := by
        rw [hp, sqDist_self]
        cases hbd : acc.bestDist with
        | none => rfl
        | some d' => exact decide_eq_true (hJ d' hbd)
      have hstep : scanStep pix t acc c = ⟨c.1, c.2, some 0⟩ := by
        unfold scanStep
        dsimp only
        rw [if_neg h0, if_neg hskip, if_pos hlt, hp, sqDist_self]
      rw [hstep, hc0]
      exact foldl_scanStep_of_zero pix t l _ rfl
    · have hf' : l.find? (fun c => pix c.1 c.2 == t) = some c0 := by
        rwa [List.find?_cons_of_neg _ (by simp [hp])] at hf
      exact ih _ c0 (scanStep_J hJ hp) hf'

/-- C6: if the target occurs exactly at some pixel of the scanned plane,
the inverse search returns precisely the first coordinate in row-major
order whose pixel equals the target (distance 0, found by `find?` over the
row-major coordinate list), and that pixel equals the target. -/
theorem locate_first_exact_match (pix : ℕ → ℕ → RGBTriple) (W H : ℕ) (t : RGBTriple)
    (c0 : ℕ × ℕ) (h : (coords W H).find? (fun c => pix c.1 c.2 == t) = some c0) :
    locate pix W H t = c0 ∧ pix c0.1 c0.2 = t := by
  constructor
  · unfold locate
    rw [foldl_scanStep_first_match pix t (coords W H) ⟨0, 0, none⟩ c0
      (fun d hd => absurd hd (by simp)) h]
  · have hp := List.find?_some h
    exact eq_of_beq (by simpa using hp)

/-- C6 witness: on a `2 x 2` synthetic surface whose pixel at `(x,y)` is
`(x, y, 0)`, the target `(1,1,0)` occurs exactly at `(1,1)` and the scan
returns it. -/
theorem locate_first_exact_match_witness :
    (coords 2 2).find?
        (fun c => (fun x y : ℕ => (⟨(x : ℤ), (y : ℤ), 0⟩ : RGBTriple)) c.1 c.2 ==
          (⟨1, 1, 0⟩ : RGBTriple)) = some (1, 1) ∧
      locate (fun x y : ℕ => (⟨(x : ℤ), (y : ℤ), 0⟩ : RGBTriple)) 2 2 ⟨1, 1, 0⟩ = (1, 1) ∧
      (fun x y : ℕ => (⟨(x : ℤ), (y : ℤ), 0⟩ : RGBTriple)) 1 1 = ⟨1, 1, 0⟩ := by
  have h : (coords 2 2).find?
      (fun c => (fun x y : ℕ => (⟨(x : ℤ), (y : ℤ), 0⟩ : RGBTriple)) c.1 c.2 ==
        (⟨1, 1, 0⟩ : RGBTriple)) = some (1, 1) := by decide
  obtain ⟨h1, h2⟩ := locate_first_exact_match
    (fun x y : ℕ => (⟨(x : ℤ), (y : ℤ), 0⟩ : RGBTriple)) 2 2 ⟨1, 1, 0⟩ (1, 1) h
  exact ⟨h, h1, h2⟩

/-! ## The hue/RGB invariant (C1) -/

lemma handleRgbInput_rejected {rs gs bs : String} (st : PickerState)
    (h : jsParseInt rs = none ∨ jsParseInt gs = none ∨ jsParseInt bs = none) :
    handleRgbInput st rs gs bs = (st, []) := by
  unfold handleRgbInput
  rcases h with h | h | h <;>
    cases hr : jsParseInt rs <;> cases hg : jsParseInt gs <;> cases hb : jsParseInt bs <;>
      simp_all

lemma hueInvariant_syncHue (st base : PickerState) {r g b : ℤ}
    (hr : base.r = r) (hg : base.g = g) (hb : base.b = b) (hh : base.hue = st.hue) :
    hueInvariant st (syncHueWithRgb base r g b) := by
  unfold hueInvariant
  rw [syncHueWithRgb_r, syncHueWithRgb_g, syncHueWithRgb_b, hr, hg, hb]
  constructor
  · intro hsp
    exact syncHueWithRgb_hue_of_ge base (by omega)
  · intro hsp
    rw [syncHueWithRgb_of_lt base hsp, hh]

lemma hueInvariant_syncLoupe (st post : PickerState) (r g b : ℤ)
    (h : hueInvariant st post) : hueInvariant st (syncLoupeToColor post r g b) := by
  unfold hueInvariant at h ⊢
  rw [syncLoupeToColor_r, syncLoupeToColor_g, syncLoupeToColor_b, syncLoupeToColor_hue]
  exact h

/-- C1 (amended): the hue/RGB invariant holds after every accepted entry
point that resynchronizes hue through `syncHueWithRgb` — plane press,
numeric RGB commit, hex commit, and seed. -/
theorem hue_invariant_after_resync (op : PickerOp) (st : PickerState)
    (h1 : resyncsHue op) (h2 : (step op st).2 ≠ []) :
    hueInvariant st (step op st).1 := by
  cases op with
  | planeDrag ex ey => exact False.elim h1
  | hueDrag ex => exact False.elim h1
  | planePress ex ey =>
    show hueInvariant st (updateLoupeFromEvent st ex ey true).1
    have h2' : (updateLoupeFromEvent st ex ey true).2 ≠ [] := h2
    unfold updateLoupeFromEvent at h2' ⊢
    dsimp only at h2' ⊢
    split at h2'
    · exact absurd rfl h2'
    · rename_i hg
      rw [if_neg hg]
      simp only [eq_self_iff_true, if_true]
      exact hueInvariant_syncHue st _ rfl rfl rfl rfl
  | rgbCommit rs gs bs =>
    show hueInvariant st (handleRgbInput st rs gs bs).1
    cases hr : jsParseInt rs with
    | none =>
      have hrej : (handleRgbInput st rs gs bs).2 = [] := by
        rw [handleRgbInput_rejected st (Or.inl hr)]
      exact absurd hrej h2
    | some r =>
      cases hg : jsParseInt gs with
      | none =>
        have hrej : (handleRgbInput st rs gs bs).2 = [] := by
          rw [handleRgbInput_rejected st (Or.inr (Or.inl hg))]
        exact absurd hrej h2
      | some g =>
        cases hb : jsParseInt bs with
        | none =>
          have hrej : (handleRgbInput st rs gs bs).2 = [] := by
            rw [handleRgbInput_rejected st (Or.inr (Or.inr hb))]
          exact absurd hrej h2
        | some b =>
          rw [handleRgbInput_accepted st hr hg hb]
          exact hueInvariant_syncLoupe st _ r g b (hueInvariant_syncHue st _ rfl rfl rfl rfl)
  | hexCommit s =>
    show hueInvariant st (handleHexInput st s).1
    cases hj : jsHexTest s with
    | false =>
      have hrej : (handleHexInput st s).2 = [] := by
        rw [handleHexInput_rejected st hj]
      exact absurd hrej h2
    | true =>
      obtain ⟨c, -, heq⟩ := handleHexInput_accepted st hj
      rw [heq]
      exact hueInvariant_syncLoupe st _ c.r c.g c.b (hueInvariant_syncHue st _ rfl rfl rfl rfl)
  | seed r g b =>
    show hueInvariant st (updateSelectedColor st r g b).1
    unfold updateSelectedColor
    exact hueInvariant_syncHue st _ rfl rfl rfl rfl

/-- C1 amended witness: the seed `(255, 0, 0)` at the default state is a
hue-resyncing accepted operation and satisfies the invariant. -/
theorem hue_invariant_after_resync_witness :
    resyncsHue (.seed 255 0 0) ∧ (step (.seed 255 0 0) (initialState 300 150)).2 ≠ [] ∧
      hueInvariant (initialState 300 150) (step (.seed 255 0 0) (initialState 300 150)).1 := by
  have h1 : resyncsHue (.seed 255 0 0) := trivial
  have h2 : (step (.seed 255 0 0) (initialState 300 150)).2 ≠ [] := by
    show (updateSelectedColor (initialState 300 150) 255 0 0).2 ≠ []
    unfold updateSelectedColor
    simp
  exact ⟨h1, h2, hue_invariant_after_resync _ _ h1 h2⟩

/-- C1 counterexample: starting from the default initial state, a plane
press at `(12, 75)` followed by a hue-bar drag to `x = 31` leaves the
canonical color `(132, 128, 122)` — whose channel spread is exactly the
threshold 10 — with stored hue 37 (set from the bar coordinate), while
`round(rgbToHsl(132,128,122).h * 360) = 36`: the claimed invariant fails
after the hue-bar drag. -/
theorem hue_invariant_fails_after_hue_drag :
    (step (.hueDrag 31) (step (.planePress 12 75) (initialState 300 150)).1).1.r = 132 ∧
    (step (.hueDrag 31) (step (.planePress 12 75) (initialState 300 150)).1).1.g = 128 ∧
    (step (.hueDrag 31) (step (.planePress 12 75) (initialState 300 150)).1).1.b = 122 ∧
    (step (.hueDrag 31) (step (.planePress 12 75) (initialState 300 150)).1).1.hue = 37 ∧
    10 ≤ max (132 : ℤ) (max 128 122) - min (132 : ℤ) (min 128 122) ∧
    jsRound ((rgbToHsl 132 128 122).1 * 360) = 36 ∧
    ¬ hueInvariant (step (.planePress 12 75) (initialState 300 150)).1
      (step (.hueDrag 31) (step (.planePress 12 75) (initialState 300 150)).1).1 := by
  have h360 : jsRound ((rgbToHsl 132 128 122).1 * 360) = 36 := by
    norm_num [rgbToHsl, jsRound, max_def, min_def]
  have e1 : (step (.planePress 12 75) (initialState 300 150)).1
      = ⟨300, 150, 12, 75, 0, 132, 122, 122⟩ := by
    show (updateLoupeFromEvent (initialState 300 150) 12 75 true).1 = _
    unfold updateLoupeFromEvent
    rw [if_neg (by norm_num [initialState, max_def, min_def])]
    norm_num [initialState, getColorAt, planePixel, hslToRgb, hue2rgb, jsRound,
      syncHueWithRgb, rgbToHsl, max_def, min_def, PickerState.mk.injEq]
    simp only [Int.reduceToNat]
    norm_num [max_def, min_def]
  rw [e1]
  have e2 : (step (.hueDrag 31) (⟨300, 150, 12, 75, 0, 132, 122, 122⟩ : PickerState)).1
      = ⟨300, 150, 12, 75, 37, 132, 128, 122⟩ := by
    show (updateHueFromEvent (⟨300, 150, 12, 75, 0, 132, 122, 122⟩ : PickerState) 31).1 = _
    unfold updateHueFromEvent
    norm_num [getColorAt, planePixel, hslToRgb, hue2rgb, jsRound, max_def, min_def,
      PickerState.mk.injEq]
    simp only [Int.reduceToNat]
    norm_num [max_def, min_def]
  rw [e2]
  refine ⟨rfl, rfl, rfl, rfl, by decide, h360, ?_⟩
  intro hinv
  obtain ⟨hA, -⟩ := hinv
  have h37 : (37 : ℤ) = jsRound ((rgbToHsl 132 128 122).1 * 360) := hA (by decide)
  rw [h360] at h37
  exact absurd h37 (by decide)
